import Mathlib

/-!
Shallow embedding of the root-progression metronome (src/app.js and the two
near-duplicate variants src/unnamed/part_000, src/unnamed/part_001).

Times are rationals (seconds on the audio clock).  The stream of
Math.random draws made by generateNewRoot is modelled as an explicit list of
indices into ROOTS; exhausting the list makes the rejection loop fail with
none, so the embedding is total.
-/

namespace RootProgression

/-- The fixed 14-symbol root alphabet (src/app.js line 4). -/
def ROOTS : List String :=
  ["C", "C#", "Db", "D", "Eb", "E", "F", "F#", "Gb", "G", "Ab", "A", "Bb", "B"]

/-- Look-ahead window in seconds, LOOK_AHEAD_TIME (src/app.js line 25). -/
def LOOK_AHEAD_TIME : ℚ := 1/10

/-- secondsPerBeat = 60.0 / tempo, computed at the top of scheduler
(src/app.js line 155). -/
def secondsPerBeat (tempo : ℚ) : ℚ := 60 / tempo

/-- The lifecycle states of the Web Audio context that the code branches on. -/
inductive AudioCtxState where
  | running
  | suspended
  | closed
  deriving DecidableEq, Repr

/-- The mutable globals of src/app.js that the core logic reads and writes.
The DOM button is abstracted to the btnRunning flag and the beat indicator
text to beatText. -/
structure AppState where
  isRunning : Bool
  tempo : ℚ
  beatsPerRoot : ℕ
  nextNoteTime : ℚ
  currentBeat : ℕ
  currentRoot : String
  upcomingRoot : String
  hasWorker : Bool
  audioContext : Option AudioCtxState
  beatText : String
  btnRunning : Bool
  deriving DecidableEq, Repr

/-- The initial values of the globals (src/app.js lines 16-30). -/
def initialState : AppState :=
  { isRunning := false
    tempo := 120
    beatsPerRoot := 2
    nextNoteTime := 0
    currentBeat := 0
    currentRoot := "C"
    upcomingRoot := "G"
    hasWorker := false
    audioContext := none
    beatText := ""
    btnRunning := false }

/-- The beat-counter update performed by one iteration of the scheduler loop:
currentBeat++; if (currentBeat > beatsPerRoot) currentBeat = 1
(src/app.js lines 159-163). -/
def beatStep (currentBeat beatsPerRoot : ℕ) : ℕ :=
  let b := currentBeat + 1
  if b > beatsPerRoot then 1 else b

/-- isDownbeat = (beatNumber === 1) (src/app.js line 115). -/
def isDownbeat (beatNumber : ℕ) : Bool := beatNumber == 1

/-- The beat-counter sequence produced by iterating the scheduler step from
the run-start seed currentBeat = beatsPerRoot (src/app.js line 193). -/
def beatSeq (beatsPerRoot : ℕ) : ℕ → ℕ
  | 0 => beatsPerRoot
  | k + 1 => beatStep (beatSeq beatsPerRoot k) beatsPerRoot

/-- One beat event passed to scheduleClick by the scheduler loop. -/
structure SchedClick where
  time : ℚ
  beatNumber : ℕ
  deriving DecidableEq, Repr

/-- The tone parameters scheduleClick gives the oscillator and gain nodes. -/
structure ToneEvent where
  freq : ℚ
  volume : ℚ
  startTime : ℚ
  stopTime : ℚ
  deriving DecidableEq, Repr

/-- The deferred visual update scheduleClick queues with setTimeout:
the delay in milliseconds, the displayed beat number, and whether the
callback will flash the root and call updateRoots (downbeat only). -/
structure VisualUpdate where
  delayMs : ℚ
  beatNumber : ℕ
  advancesRoots : Bool
  deriving DecidableEq, Repr

/-- The oscillator/gain parameters of scheduleClick in src/app.js lines
114-132 (identical in src/unnamed/part_001 lines 150-165): frequency 880 on
the downbeat and 440 otherwise, gain 0.6 on the downbeat and 0.4 otherwise,
start(time), stop(time + 0.05). -/
def clickTone (time : ℚ) (beatNumber : ℕ) : ToneEvent :=
  { freq := if beatNumber == 1 then 880 else 440
    volume := if beatNumber == 1 then 6/10 else 4/10
    startTime := time
    stopTime := time + 5/100 }

/-- The oscillator/gain parameters of the scheduleClick variant at
src/unnamed/part_000 lines 333-354, whose volume line reads
const volume = isDownbeat ? 0.6 : 0.6. -/
def clickToneV0 (time : ℚ) (beatNumber : ℕ) : ToneEvent :=
  { freq := if beatNumber == 1 then 880 else 440
    volume := if beatNumber == 1 then 6/10 else 6/10
    startTime := time
    stopTime := time + 5/100 }

/-- The observable effects of scheduleClick in src/app.js lines 114-151:
the tone, and the setTimeout visual task whose delay is
(time - audioContext.currentTime) * 1000 and which calls updateRoots
exactly on downbeats. -/
def scheduleClick (time : ℚ) (beatNumber : ℕ) (now : ℚ) :
    ToneEvent × VisualUpdate :=
  (clickTone time beatNumber,
   { delayMs := (time - now) * 1000
     beatNumber := beatNumber
     advancesRoots := beatNumber == 1 })

/-- scheduleClick of src/unnamed/part_001 lines 145-180: identical to the
src/app.js version except for the guard
if (audioContext.state === "suspended") return;
which skips the tone AND the visual task when the context is suspended. -/
def scheduleClickV1 (audioSt : AudioCtxState) (time : ℚ) (beatNumber : ℕ)
    (now : ℚ) : Option (ToneEvent × VisualUpdate) :=
  if audioSt = .suspended then none
  else some (scheduleClick time beatNumber now)

/-- The scheduler while-loop of src/app.js lines 157-168, with explicit fuel
(the loop runs while nextNoteTime < now + LOOK_AHEAD_TIME; each iteration
advances the beat counter, emits one click, and adds secondsPerBeat).
Returns the emitted clicks in order together with the final currentBeat and
nextNoteTime. -/
def schedulerLoopFuel :
    ℕ → ℚ → ℚ → ℕ → ℕ → ℚ → List SchedClick × ℕ × ℚ
  | 0, _, _, _, cb, nnt => ([], cb, nnt)
  | fuel + 1, now, spb, bpc, cb, nnt =>
    if nnt < now + LOOK_AHEAD_TIME then
      let cb2 := beatStep cb bpc
      let r := schedulerLoopFuel fuel now spb bpc cb2 (nnt + spb)
      (⟨nnt, cb2⟩ :: r.1, r.2)
    else ([], cb, nnt)

/-- scheduler (src/app.js lines 154-169) acting on the global state: runs the
look-ahead loop with secondsPerBeat = 60 / tempo and writes back the final
currentBeat and nextNoteTime. -/
def scheduler (fuel : ℕ) (s : AppState) (now : ℚ) :
    List SchedClick × AppState :=
  let r := schedulerLoopFuel fuel now (secondsPerBeat s.tempo)
            s.beatsPerRoot s.currentBeat s.nextNoteTime
  (r.1, { s with currentBeat := r.2.1, nextNoteTime := r.2.2 })

/-- The scheduler loop of src/unnamed/part_001 lines 182-197, which calls
the guarded scheduleClickV1: beat counter and nextNoteTime advance exactly
as in the unguarded loop, but no effect is emitted while suspended. -/
def schedulerLoopV1 :
    ℕ → AudioCtxState → ℚ → ℚ → ℕ → ℕ → ℚ →
      List (ToneEvent × VisualUpdate) × ℕ × ℚ
  | 0, _, _, _, _, cb, nnt => ([], cb, nnt)
  | fuel + 1, audioSt, now, spb, bpc, cb, nnt =>
    if nnt < now + LOOK_AHEAD_TIME then
      let cb2 := beatStep cb bpc
      let r := schedulerLoopV1 fuel audioSt now spb bpc cb2 (nnt + spb)
      match scheduleClickV1 audioSt nnt cb2 now with
      | none => (r.1, r.2)
      | some ev => (ev :: r.1, r.2)
    else ([], cb, nnt)

/-- generateNewRoot (src/app.js lines 95-102): do { draw } while (same as
excludeRoot).  The Math.random draws are an explicit list of indices into
ROOTS; none means the list of draws was exhausted before a distinct root
appeared. -/
def generateNewRoot (excludeRoot : String) : List (Fin 14) → Option String
  | [] => none
  | i :: rest =>
    let newRoot := ROOTS.getD (i : ℕ) "C"
    if newRoot = excludeRoot then generateNewRoot excludeRoot rest
    else some newRoot

/-- updateRoots (src/app.js lines 105-111): currentRoot = upcomingRoot;
upcomingRoot = generateNewRoot(currentRoot). -/
def updateRoots (s : AppState) (draws : List (Fin 14)) : Option AppState :=
  match generateNewRoot s.upcomingRoot draws with
  | none => none
  | some r => some { s with currentRoot := s.upcomingRoot, upcomingRoot := r }

/-- The DOMContentLoaded handler (src/app.js lines 268-273): updateRoots();
then upcomingRoot = generateNewRoot(currentRoot). -/
def domContentLoaded (s : AppState) (draws1 draws2 : List (Fin 14)) :
    Option AppState :=
  match updateRoots s draws1 with
  | none => none
  | some s1 =>
    match generateNewRoot s1.currentRoot draws2 with
    | none => none
    | some r => some { s1 with upcomingRoot := r }

/-- The audio-context handling in startMetronome (src/app.js lines 181-186):
create the context when null, resume it when suspended. -/
def resumeAudio (a : Option AudioCtxState) : Option AudioCtxState :=
  match a with
  | none => some .running
  | some .suspended => some .running
  | some st => some st

/-- startMetronome (src/app.js lines 174-211): early return when already
running; otherwise acquire the audio context, set the run flag and button,
seed nextNoteTime = currentTime + 0.1 and currentBeat = beatsPerRoot, and
start the timer worker. -/
def startMetronome (s : AppState) (now : ℚ) : AppState :=
  if s.isRunning then s
  else
    { s with
      audioContext := resumeAudio s.audioContext
      isRunning := true
      btnRunning := true
      nextNoteTime := now + 1/10
      currentBeat := s.beatsPerRoot
      hasWorker := true }

/-- The audio-context handling in stopMetronome (src/app.js lines 228-230):
if (audioContext && audioContext.state !== closed) audioContext.suspend(). -/
def suspendAudio (a : Option AudioCtxState) : Option AudioCtxState :=
  match a with
  | none => none
  | some st => if st = .closed then some st else some .suspended

/-- stopMetronome (src/app.js lines 214-231): terminate and discard the
worker, clear the run flag, button and beat indicator, reset currentBeat to
0, and suspend the audio context when it exists and is not closed. -/
def stopMetronome (s : AppState) : AppState :=
  { s with
    hasWorker := false
    isRunning := false
    btnRunning := false
    beatText := ""
    currentBeat := 0
    audioContext := suspendAudio s.audioContext }

/-- The beats-per-root radio listener (src/app.js lines 248-255):
beatsPerRoot = parseInt(value); if (isRunning) currentBeat = beatsPerRoot. -/
def changeBeatsPerRoot (s : AppState) (n : ℕ) : AppState :=
  let s1 := { s with beatsPerRoot := n }
  if s1.isRunning then { s1 with currentBeat := n } else s1

/-! ### Helper lemmas -/

theorem beatStep_self (n : ℕ) : beatStep n n = 1 := by
  simp [beatStep]

theorem scheduler_head_of_seeded (s : AppState) (now : ℚ) (fuel : ℕ)
    (hcb : s.currentBeat = s.beatsPerRoot)
    (hdue : s.nextNoteTime < now + LOOK_AHEAD_TIME) :
    (scheduler (fuel + 1) s now).1.head? = some ⟨s.nextNoteTime, 1⟩ := by
  simp [scheduler, schedulerLoopFuel, hdue, hcb, beatStep_self]

/-! ### Claim theorems -/

/-- C1: for every positive BeatsPerCycle N, the start command seeds the beat
counter to N (currentBeat = beatsPerRoot), and the first beat emitted by the
scheduler loop afterwards has index 1 and is flagged as a downbeat. -/
theorem C1_first_beat_is_downbeat (s : AppState) (t now : ℚ) (N : ℕ)
    (hrun : s.isRunning = false) (_hN : 1 ≤ N) (hbpc : s.beatsPerRoot = N)
    (fuel : ℕ)
    (hdue : (startMetronome s t).nextNoteTime < now + LOOK_AHEAD_TIME) :
    (startMetronome s t).currentBeat = N ∧
    (scheduler (fuel + 1) (startMetronome s t) now).1.head? =
      some ⟨(startMetronome s t).nextNoteTime, 1⟩ ∧
    isDownbeat 1 = true := by
  have hcb : (startMetronome s t).currentBeat = (startMetronome s t).beatsPerRoot := by
    simp [startMetronome, hrun]
  refine ⟨?_, scheduler_head_of_seeded _ now fuel hcb hdue, rfl⟩
  simp [startMetronome, hrun, hbpc]

theorem C1_first_beat_is_downbeat_witness :
    (startMetronome initialState 0).currentBeat = 2 ∧
    (scheduler 1 (startMetronome initialState 0) (1/20)).1.head? =
      some ⟨(startMetronome initialState 0).nextNoteTime, 1⟩ ∧
    isDownbeat 1 = true :=
  C1_first_beat_is_downbeat initialState 0 (1/20) 2 rfl (by norm_num) rfl 0
    (by norm_num [startMetronome, initialState, LOOK_AHEAD_TIME])

/-- C2: while running with BeatsPerCycle = N ≥ 1, one scheduler step from any
counter value in [1, N] lands in [1, N], increments by exactly 1 below N and
wraps from N to 1; consequently the whole sequence seeded at N stays in
[1, N]. -/
theorem C2_beat_counter_invariant (N : ℕ) (hN : 1 ≤ N) :
    (∀ cb, 1 ≤ cb → cb ≤ N →
      (1 ≤ beatStep cb N ∧ beatStep cb N ≤ N) ∧
      (cb < N → beatStep cb N = cb + 1) ∧
      (cb = N → beatStep cb N = 1)) ∧
    (∀ k, 1 ≤ beatSeq N k ∧ beatSeq N k ≤ N) := by
  constructor
  · intro cb h1 h2
    refine ⟨⟨?_, ?_⟩, fun h => ?_, fun h => ?_⟩ <;>
      simp only [beatStep] <;> split <;> omega
  · intro k
    induction k with
    | zero => simp only [beatSeq]; omega
    | succ k ih =>
      simp only [beatSeq, beatStep]
      split <;> omega

theorem C2_beat_counter_invariant_witness :
    ((1 ≤ beatStep 2 4 ∧ beatStep 2 4 ≤ 4) ∧
      (2 < 4 → beatStep 2 4 = 3) ∧ (2 = 4 → beatStep 2 4 = 1)) ∧
    (1 ≤ beatSeq 4 3 ∧ beatSeq 4 3 ≤ 4) := by
  have h := C2_beat_counter_invariant 4 (by norm_num)
  exact ⟨h.1 2 (by norm_num) (by norm_num), h.2 3⟩

/-- C4: changing BeatsPerCycle to n while running writes beatsPerRoot := n
and resets currentBeat := n, so the next beat the scheduler computes is
index 1, a downbeat; while stopped, only beatsPerRoot changes and the beat
counter is untouched. -/
theorem C4_change_beats_resets (s : AppState) (n : ℕ) :
    (s.isRunning = true →
      (changeBeatsPerRoot s n).currentBeat = n ∧
      (changeBeatsPerRoot s n).beatsPerRoot = n ∧
      beatStep n n = 1 ∧ isDownbeat (beatStep n n) = true ∧
      (∀ fuel now,
        (changeBeatsPerRoot s n).nextNoteTime < now + LOOK_AHEAD_TIME →
        (scheduler (fuel + 1) (changeBeatsPerRoot s n) now).1.head? =
          some ⟨(changeBeatsPerRoot s n).nextNoteTime, 1⟩)) ∧
    (s.isRunning = false →
      (changeBeatsPerRoot s n).currentBeat = s.currentBeat ∧
      (changeBeatsPerRoot s n).beatsPerRoot = n) := by
  constructor
  · intro hrun
    have hcb : (changeBeatsPerRoot s n).currentBeat =
        (changeBeatsPerRoot s n).beatsPerRoot := by
      simp [changeBeatsPerRoot, hrun]
    refine ⟨?_, ?_, beatStep_self n, by simp [beatStep_self, isDownbeat], ?_⟩
    · simp [changeBeatsPerRoot, hrun]
    · simp [changeBeatsPerRoot, hrun]
    · intro fuel now hdue
      exact scheduler_head_of_seeded _ now fuel hcb hdue
  · intro hrun
    constructor <;> simp [changeBeatsPerRoot, hrun]

theorem C4_change_beats_resets_witness :
    (changeBeatsPerRoot (startMetronome initialState 0) 3).currentBeat = 3 ∧
    beatStep 3 3 = 1 ∧
    (scheduler 1 (changeBeatsPerRoot (startMetronome initialState 0) 3)
        (1/20)).1.head? =
      some ⟨(changeBeatsPerRoot (startMetronome initialState 0) 3).nextNoteTime,
        1⟩ := by
  have h := (C4_change_beats_resets (startMetronome initialState 0) 3).1 rfl
  exact ⟨h.1, h.2.2.1, h.2.2.2.2 0 (1/20)
    (by norm_num [changeBeatsPerRoot, startMetronome, initialState,
      LOOK_AHEAD_TIME])⟩

theorem schedulerLoopFuel_done (fuel : ℕ) (now spb : ℚ) (bpc cb : ℕ)
    (nnt : ℚ) (h : ¬ nnt < now + LOOK_AHEAD_TIME) :
    schedulerLoopFuel fuel now spb bpc cb nnt = ([], cb, nnt) := by
  cases fuel <;> simp [schedulerLoopFuel, h]

theorem schedulerLoopFuel_terminates (fuel : ℕ) (now spb : ℚ) (bpc cb : ℕ)
    (nnt : ℚ) (h : now + LOOK_AHEAD_TIME - nnt ≤ fuel * spb) :
    ¬ ((schedulerLoopFuel fuel now spb bpc cb nnt).2.2 <
        now + LOOK_AHEAD_TIME) := by
  induction fuel generalizing cb nnt with
  | zero =>
    simp only [schedulerLoopFuel]
    push_cast at h
    intro hc
    linarith
  | succ f ih =>
    by_cases hg : nnt < now + LOOK_AHEAD_TIME
    · have h2 : now + LOOK_AHEAD_TIME - (nnt + spb) ≤ f * spb := by
        push_cast at h ⊢
        linarith
      simpa [schedulerLoopFuel, hg] using ih (beatStep cb bpc) (nnt + spb) h2
    · simp [schedulerLoopFuel_done, hg]

theorem schedulerLoopFuel_length_le_one (fuel : ℕ) (now spb : ℚ)
    (bpc cb : ℕ) (nnt : ℚ) (h : now + LOOK_AHEAD_TIME ≤ nnt + spb) :
    (schedulerLoopFuel fuel now spb bpc cb nnt).1.length ≤ 1 := by
  cases fuel with
  | zero => simp [schedulerLoopFuel]
  | succ f =>
    by_cases hg : nnt < now + LOOK_AHEAD_TIME
    · have hd : ¬ (nnt + spb < now + LOOK_AHEAD_TIME) := by linarith
      simp [schedulerLoopFuel, hg,
        schedulerLoopFuel_done f now spb bpc (beatStep cb bpc) (nnt + spb) hd]
    · simp [schedulerLoopFuel, hg]

theorem schedulerLoopFuel_one_step (now spb : ℚ) (bpc cb : ℕ) (nnt : ℚ)
    (hg : nnt < now + LOOK_AHEAD_TIME) :
    schedulerLoopFuel 1 now spb bpc cb nnt =
      ([⟨nnt, beatStep cb bpc⟩], beatStep cb bpc, nnt + spb) := by
  simp [schedulerLoopFuel, hg]

/-- C3 counterexample: the claimed identity ceil(0.1/0.5) + 1 = 1 is false;
with LOOK_AHEAD_TIME = 0.1 and secondsPerBeat 120 = 0.5 the formula
evaluates to 2, not 1. -/
theorem C3_ceil_formula_counterexample :
    ⌈LOOK_AHEAD_TIME / secondsPerBeat 120⌉₊ + 1 ≠ 1 := by
  have h : LOOK_AHEAD_TIME / secondsPerBeat 120 = 1/5 := by
    norm_num [LOOK_AHEAD_TIME, secondsPerBeat]
  rw [h]
  have h2 : 0 < ⌈(1 : ℚ)/5⌉₊ := Nat.ceil_pos.mpr (by norm_num)
  omega

/-- C3 (amended): with Tempo = 120 the increment secondsPerBeat 120 = 0.5 is
positive, each loop iteration advances nextNoteTime by exactly that amount,
the loop always terminates (some finite fuel drives the guard false), and in
steady state — the next note already at or beyond now + 0.1 - 0.5 — one tick
schedules at most floor(0.1/0.5) + 1 = 1 beat. -/
theorem C3_loop_terminates (now nnt : ℚ) (bpc cb : ℕ) :
    0 < secondsPerBeat 120 ∧
    (nnt < now + LOOK_AHEAD_TIME →
      (schedulerLoopFuel 1 now (secondsPerBeat 120) bpc cb nnt).2.2 =
        nnt + secondsPerBeat 120) ∧
    (∃ fuel,
      ¬ ((schedulerLoopFuel fuel now (secondsPerBeat 120) bpc cb nnt).2.2 <
          now + LOOK_AHEAD_TIME)) ∧
    (now + LOOK_AHEAD_TIME ≤ nnt + secondsPerBeat 120 →
      ∀ fuel,
        (schedulerLoopFuel fuel now (secondsPerBeat 120) bpc cb nnt).1.length ≤
          1) := by
  have hspb : secondsPerBeat 120 = 1/2 := by norm_num [secondsPerBeat]
  refine ⟨by rw [hspb]; norm_num, ?_, ?_, ?_⟩
  · intro hg
    rw [schedulerLoopFuel_one_step now (secondsPerBeat 120) bpc cb nnt hg]
  · refine ⟨⌈2 * (now + LOOK_AHEAD_TIME - nnt)⌉₊, ?_⟩
    apply schedulerLoopFuel_terminates
    rw [hspb]
    have hle := Nat.le_ceil (2 * (now + LOOK_AHEAD_TIME - nnt))
    have := mul_le_mul_of_nonneg_right hle (by norm_num : (0:ℚ) ≤ 1/2)
    linarith
  · intro h fuel
    exact schedulerLoopFuel_length_le_one fuel now (secondsPerBeat 120)
      bpc cb nnt h

theorem C3_loop_terminates_witness :
    0 < secondsPerBeat 120 ∧
    (schedulerLoopFuel 1 0 (secondsPerBeat 120) 4 4 0).2.2 =
      0 + secondsPerBeat 120 ∧
    (∃ fuel,
      ¬ ((schedulerLoopFuel fuel 0 (secondsPerBeat 120) 4 4 0).2.2 <
          0 + LOOK_AHEAD_TIME)) ∧
    (schedulerLoopFuel 5 (1/2) (secondsPerBeat 120) 4 4 (11/20)).1.length ≤
      1 := by
  have h := C3_loop_terminates 0 0 4 4
  have h2 := C3_loop_terminates (1/2) (11/20) 4 4
  refine ⟨h.1, h.2.1 (by norm_num [LOOK_AHEAD_TIME]), h.2.2.1, ?_⟩
  exact h2.2.2.2 (by norm_num [LOOK_AHEAD_TIME, secondsPerBeat]) 5

theorem drawRoot_mem : ∀ i : Fin 14, ROOTS.getD (i : ℕ) "C" ∈ ROOTS := by
  decide

theorem generateNewRoot_sound (ex : String) (draws : List (Fin 14))
    (r : String) (h : generateNewRoot ex draws = some r) :
    r ∈ ROOTS ∧ r ≠ ex := by
  induction draws with
  | nil => simp [generateNewRoot] at h
  | cons i rest ih =>
    rw [generateNewRoot] at h
    by_cases hi : ROOTS.getD (i : ℕ) "C" = ex
    · rw [if_pos hi] at h
      exact ih h
    · rw [if_neg hi] at h
      injection h with h
      subst h
      exact ⟨drawRoot_mem i, hi⟩

/-- C5: generateNewRoot, whenever it returns a root, returns an element of
the 14-symbol alphabet different from the excluded root; updateRoots moves
the old upcoming root into current and draws a fresh upcoming root distinct
from it; and the DOMContentLoaded initialization leaves
currentRoot ≠ upcomingRoot. -/
theorem C5_root_invariant :
    (∀ ex draws r, generateNewRoot ex draws = some r →
      r ∈ ROOTS ∧ r ≠ ex) ∧
    (∀ (s : AppState) draws s2, updateRoots s draws = some s2 →
      s2.currentRoot = s.upcomingRoot ∧ s2.upcomingRoot ∈ ROOTS ∧
      s2.upcomingRoot ≠ s2.currentRoot) ∧
    (∀ (s : AppState) d1 d2 s2, domContentLoaded s d1 d2 = some s2 →
      s2.currentRoot ≠ s2.upcomingRoot) := by
  have hupd : ∀ (s : AppState) draws s2, updateRoots s draws = some s2 →
      s2.currentRoot = s.upcomingRoot ∧ s2.upcomingRoot ∈ ROOTS ∧
      s2.upcomingRoot ≠ s2.currentRoot := by
    intro s draws s2 h
    unfold updateRoots at h
    cases hg : generateNewRoot s.upcomingRoot draws with
    | none => rw [hg] at h; exact absurd h (by simp)
    | some r =>
      rw [hg] at h
      injection h with h
      subst h
      have hs := generateNewRoot_sound _ _ _ hg
      exact ⟨rfl, hs.1, hs.2⟩
  refine ⟨fun ex draws r h => generateNewRoot_sound ex draws r h, hupd, ?_⟩
  intro s d1 d2 s2 h
  unfold domContentLoaded at h
  cases h1 : updateRoots s d1 with
  | none => rw [h1] at h; exact absurd h (by simp)
  | some s1 =>
    rw [h1] at h
    dsimp only at h
    cases h2 : generateNewRoot s1.currentRoot d2 with
    | none => rw [h2] at h; exact absurd h (by simp)
    | some r =>
      rw [h2] at h
      injection h with h
      subst h
      have hs := generateNewRoot_sound _ _ _ h2
      exact fun hc => hs.2 hc.symm

theorem C5_root_invariant_witness :
    ("G" ∈ ROOTS ∧ "G" ≠ "C") ∧
    ((updateRoots initialState [(0 : Fin 14)]).elim True
      (fun s2 => s2.currentRoot = "G")) := by
  refine ⟨C5_root_invariant.1 "C" [(9 : Fin 14)] "G" (by decide), ?_⟩
  have h := C5_root_invariant.2.1 initialState [(0 : Fin 14)]
  cases hu : updateRoots initialState [(0 : Fin 14)] with
  | none => simp
  | some s2 => simpa using (h s2 hu).1

/-- C6 counterexample: the DOMContentLoaded handler first runs updateRoots,
which promotes the seeded upcomingRoot "G" into currentRoot, so with the
concrete draw streams [0], [0] initialization succeeds and leaves
currentRoot = "G", not "C". -/
theorem C6_init_current_counterexample :
    (domContentLoaded initialState [(0 : Fin 14)] [(0 : Fin 14)]).map
      (fun s => s.currentRoot) = some "G" ∧ "G" ≠ "C" := by
  decide

theorem root_index :
    ∀ r ∈ ROOTS, ∃ i : Fin 14, ROOTS.getD (i : ℕ) "C" = r := by
  decide

/-- C6 (amended): after the DOMContentLoaded initialization and before any
run, currentRoot = "G" (the seeded upcoming value promoted by the initial
updateRoots call) and upcomingRoot is a draw from the 14-symbol alphabet
excluding "G"; moreover every non-"G" symbol of the alphabet is a possible
value of upcomingRoot. -/
theorem C6_init_roots (d1 d2 : List (Fin 14)) (s2 : AppState)
    (h : domContentLoaded initialState d1 d2 = some s2) :
    s2.currentRoot = "G" ∧ s2.upcomingRoot ∈ ROOTS ∧ s2.upcomingRoot ≠ "G" ∧
    (∀ r, r ∈ ROOTS → r ≠ "G" →
      ∃ e1 e2 s3, domContentLoaded initialState e1 e2 = some s3 ∧
        s3.currentRoot = "G" ∧ s3.upcomingRoot = r) := by
  have hreach : ∀ r, r ∈ ROOTS → r ≠ "G" →
      ∃ e1 e2 s3, domContentLoaded initialState e1 e2 = some s3 ∧
        s3.currentRoot = "G" ∧ s3.upcomingRoot = r := by
    intro r hr hrG
    obtain ⟨i, hi⟩ := root_index r hr
    refine ⟨[(0 : Fin 14)], [i],
      { initialState with currentRoot := "G", upcomingRoot := r }, ?_, rfl, rfl⟩
    have h1 : updateRoots initialState [(0 : Fin 14)] =
        some { initialState with currentRoot := "G", upcomingRoot := "C" } := by
      decide
    rw [domContentLoaded, h1]
    dsimp only
    rw [show generateNewRoot "G" [i] =
        if ROOTS.getD (i : ℕ) "C" = "G" then generateNewRoot "G" []
        else some (ROOTS.getD (i : ℕ) "C") from rfl]
    rw [hi, if_neg hrG]
  unfold domContentLoaded at h
  cases h1 : updateRoots initialState d1 with
  | none => rw [h1] at h; exact absurd h (by simp)
  | some s1 =>
    rw [h1] at h
    dsimp only at h
    have hs1 : s1.currentRoot = "G" := by
      unfold updateRoots at h1
      cases hg : generateNewRoot initialState.upcomingRoot d1 with
      | none => rw [hg] at h1; exact absurd h1 (by simp)
      | some r =>
        rw [hg] at h1
        injection h1 with h1
        subst h1
        rfl
    cases h2 : generateNewRoot s1.currentRoot d2 with
    | none => rw [h2] at h; exact absurd h (by simp)
    | some r =>
      rw [h2] at h
      injection h with h
      subst h
      have hs := generateNewRoot_sound _ _ _ h2
      rw [hs1] at hs
      exact ⟨hs1, hs.1, hs.2, hreach⟩

theorem C6_init_roots_witness :
    ∃ s2, domContentLoaded initialState [(0 : Fin 14)] [(3 : Fin 14)] =
        some s2 ∧
      s2.currentRoot = "G" ∧ s2.upcomingRoot ∈ ROOTS ∧
      s2.upcomingRoot ≠ "G" := by
  have hdom : domContentLoaded initialState [(0 : Fin 14)] [(3 : Fin 14)] =
      some { initialState with currentRoot := "G", upcomingRoot := "D" } := by
    decide
  have h := C6_init_roots [(0 : Fin 14)] [(3 : Fin 14)] _ hdom
  exact ⟨_, hdom, h.1, h.2.1, h.2.2.1⟩

/-- C7 counterexample: in the src/unnamed/part_001 variant a due downbeat is
computed while the audio context is suspended (the final beat counter is 1),
yet the loop emits no effect at all — no tone, but also no visual update and
no root advance — contradicting the claim that roots and visuals still
advance. -/
theorem C7_suspended_counterexample :
    (schedulerLoopV1 1 AudioCtxState.suspended 0 (1/2) 4 4 0).1 = [] ∧
    (schedulerLoopV1 1 AudioCtxState.suspended 0 (1/2) 4 4 0).2.1 = 1 := by
  norm_num [schedulerLoopV1, scheduleClickV1, LOOK_AHEAD_TIME, beatStep]

/-- C7 (amended): in the src/unnamed/part_001 variant, while the audio
context is suspended scheduleClick returns early, so the tone, the deferred
visual update and the downbeat root advance are all skipped (no effect is
emitted); the scheduler loop is otherwise resource-state-agnostic: the beat
counter and nextNoteTime evolve exactly as when the context is running, so
timing state stays consistent and audible playback resumes once the context
is un-suspended. -/
theorem C7_suspended_loop (fuel : ℕ) (now spb : ℚ) (bpc cb : ℕ) (nnt : ℚ) :
    (schedulerLoopV1 fuel AudioCtxState.suspended now spb bpc cb nnt).1 =
      [] ∧
    (schedulerLoopV1 fuel AudioCtxState.suspended now spb bpc cb nnt).2 =
      (schedulerLoopV1 fuel AudioCtxState.running now spb bpc cb nnt).2 ∧
    scheduleClickV1 AudioCtxState.suspended nnt cb now = none := by
  refine ⟨?_, ?_, rfl⟩ <;>
  · induction fuel generalizing cb nnt with
    | zero => simp [schedulerLoopV1]
    | succ f ih =>
      by_cases hg : nnt < now + LOOK_AHEAD_TIME
      · simpa [schedulerLoopV1, hg, scheduleClickV1] using
          ih (beatStep cb bpc) (nnt + spb)
      · simp [schedulerLoopV1, hg]

theorem suspendAudio_idem (a : Option AudioCtxState) :
    suspendAudio (suspendAudio a) = suspendAudio a := by
  rcases a with _ | st
  · rfl
  · rcases st <;> rfl

/-- C8: start is idempotent (the second call hits the isRunning early
return), stop is idempotent, and calling stop in a quiescent stopped state
(no worker, beat counter 0, indicator cleared, audio absent, suspended or
closed) changes nothing; stop is a total function, so no error is raised. -/
theorem C8_start_stop_idempotent (s : AppState) (t t2 : ℚ) :
    startMetronome (startMetronome s t) t2 = startMetronome s t ∧
    stopMetronome (stopMetronome s) = stopMetronome s ∧
    ((s.isRunning = false ∧ s.hasWorker = false ∧ s.currentBeat = 0 ∧
      s.beatText = "" ∧ s.btnRunning = false ∧
      (s.audioContext = none ∨ s.audioContext = some AudioCtxState.suspended ∨
        s.audioContext = some AudioCtxState.closed)) →
      stopMetronome s = s) := by
  refine ⟨?_, ?_, ?_⟩
  · by_cases h : s.isRunning <;> simp [startMetronome, h]
  · simp [stopMetronome, suspendAudio_idem]
  · rintro ⟨h1, h2, h3, h4, h5, h6 | h6 | h6⟩ <;>
      cases s <;> simp_all [stopMetronome, suspendAudio]

theorem C8_start_stop_idempotent_witness :
    stopMetronome initialState = initialState :=
  (C8_start_stop_idempotent initialState 0 0).2.2
    ⟨rfl, rfl, rfl, rfl, rfl, Or.inl rfl⟩

/-- C9 counterexample: in the src/unnamed/part_000 variant (lines 333-354)
the volume line reads isDownbeat ? 0.6 : 0.6, so the downbeat tone is NOT
louder than the off-beat tone. -/
theorem C9_volume_counterexample :
    ¬ ((clickToneV0 0 2).volume < (clickToneV0 0 1).volume) := by
  norm_num [clickToneV0]

/-- C9 (amended): every scheduled tone lasts exactly 0.05 s (≈50 ms) and
starts exactly at the scheduled clock time; the downbeat tone has a higher
pitch (880 Hz vs 440 Hz) in every variant, and a higher volume (0.6 vs 0.4)
in src/app.js and src/unnamed/part_001, but in the src/unnamed/part_000
variant both tones have volume 0.6, so there the downbeat is only
higher-pitched, not louder. -/
theorem C9_tone_contract (t : ℚ) (b : ℕ) (hb : b ≠ 1) :
    (clickTone t b).startTime = t ∧
    (clickTone t 1).startTime = t ∧
    (clickTone t b).stopTime - (clickTone t b).startTime = 5/100 ∧
    (clickTone t 1).stopTime - (clickTone t 1).startTime = 5/100 ∧
    (clickTone t b).freq < (clickTone t 1).freq ∧
    (clickTone t b).volume < (clickTone t 1).volume ∧
    (clickToneV0 t b).startTime = t ∧
    (clickToneV0 t b).stopTime - (clickToneV0 t b).startTime = 5/100 ∧
    (clickToneV0 t b).freq < (clickToneV0 t 1).freq ∧
    (clickToneV0 t b).volume = (clickToneV0 t 1).volume := by
  have hb2 : (b == 1) = false := by simpa using hb
  refine ⟨?_, ?_, ?_, ?_, ?_, ?_, ?_, ?_, ?_, ?_⟩ <;>
    simp [clickTone, clickToneV0, hb2] <;> norm_num

theorem C9_tone_contract_witness :
    (clickTone 0 2).startTime = 0 ∧
    (clickTone 0 1).startTime = 0 ∧
    (clickTone 0 2).stopTime - (clickTone 0 2).startTime = 5/100 ∧
    (clickTone 0 1).stopTime - (clickTone 0 1).startTime = 5/100 ∧
    (clickTone 0 2).freq < (clickTone 0 1).freq ∧
    (clickTone 0 2).volume < (clickTone 0 1).volume ∧
    (clickToneV0 0 2).startTime = 0 ∧
    (clickToneV0 0 2).stopTime - (clickToneV0 0 2).startTime = 5/100 ∧
    (clickToneV0 0 2).freq < (clickToneV0 0 1).freq ∧
    (clickToneV0 0 2).volume = (clickToneV0 0 1).volume :=
  C9_tone_contract 0 2 (by norm_num)

/-- C10: stopMetronome touches only the run flag, the worker, the beat
counter (reset to 0), the visual indicators and the audio resource; tempo,
beatsPerRoot, nextNoteTime and the root pair are untouched, and the roots
still hold their old values after a subsequent start. -/
theorem C10_stop_frame (s : AppState) (t : ℚ) :
    (stopMetronome s).tempo = s.tempo ∧
    (stopMetronome s).beatsPerRoot = s.beatsPerRoot ∧
    (stopMetronome s).nextNoteTime = s.nextNoteTime ∧
    (stopMetronome s).currentRoot = s.currentRoot ∧
    (stopMetronome s).upcomingRoot = s.upcomingRoot ∧
    (stopMetronome s).currentBeat = 0 ∧
    (stopMetronome s).isRunning = false ∧
    (stopMetronome s).hasWorker = false ∧
    (stopMetronome s).beatText = "" ∧
    (stopMetronome s).btnRunning = false ∧
    (startMetronome (stopMetronome s) t).currentRoot = s.currentRoot ∧
    (startMetronome (stopMetronome s) t).upcomingRoot = s.upcomingRoot := by
  simp [stopMetronome, startMetronome]

end RootProgression
